import Mathlib

/-!
Verification development for the order-creation backend: the order-creation
HTTP handlers, the payment-gateway token cache, and the idempotent
order-creation coordinator described by the design document.

Shallow embedding conventions:
* JSON/JS strings are `String`; optional JS fields are `Option _`.
* JS `number` amounts (dollar values from the frontend) are `ℚ`.
* Timestamps in milliseconds (`Date.now()`) are `Int`/`Nat` parameters.
* A handler is a pure function of its inputs plus explicit state
  (the persisted order list) and oracles for the outcomes of external
  calls (whether the store listing throws, whether creation throws, the
  gateway's authentication response).
-/

namespace Medusa

/-- A line item of the incoming request body (interface `OrderItem`). -/
structure OrderItemReq where
  title : String
  product_title : String
  quantity : Nat
  unit_price : ℚ
  variant_sku : Option String
deriving DecidableEq, Repr

/-- The `shipping_address` object of the request body. -/
structure ShippingAddress where
  first_name : String
  last_name : String
  address_1 : String
  address_2 : Option String
  city : String
  province : String
  postal_code : String
  country_code : String
  phone : Option String
deriving DecidableEq, Repr

/-- The request body (interface `CreateOrderBody`). A missing
`shipping_address` is `none`; a missing/empty email is `""`. -/
structure CreateOrderBody where
  email : String
  currency_code : String
  items : List OrderItemReq
  shipping_address : Option ShippingAddress
  shipping_method : String
  shipping_total : ℚ
  subtotal : ℚ
  tax_total : ℚ
  total : ℚ
  payment_intent_id : String
  merchant_order_id : String
deriving DecidableEq, Repr

/-- A country row inside a region (`c.iso_2`). -/
structure Country where
  iso_2 : String
deriving DecidableEq, Repr

/-- A region returned by `regionModuleService.listRegions`. -/
structure Region where
  id : String
  countries : List Country
deriving DecidableEq, Repr

/-- `c.iso_2?.toLowerCase() === body.shipping_address.country_code.toLowerCase()` -/
def countryMatches (cc : String) (c : Country) : Bool :=
  c.iso_2.toLower == cc.toLower

/-- Region resolution:
`regionList.find(r => r.countries?.some(c => ...)) || regionList[0]`. -/
def resolveRegion (regions : List Region) (cc : String) : Option Region :=
  match regions.find? (fun r => r.countries.any (countryMatches cc)) with
  | some r => some r
  | none => regions.head?

/-- `const displayId = body.merchant_order_id || ("31N-" + Date.now())` —
the empty string is falsy in JS. -/
def displayIdOf (mid : String) (now : Nat) : String :=
  if mid = "" then "31N-" ++ toString now else mid

/-- `!body.email || !body.items?.length || !body.shipping_address`, negated:
the body passes validation. -/
def validBody (b : CreateOrderBody) : Bool :=
  !(b.email == "") && !b.items.isEmpty && b.shipping_address.isSome

namespace V1

/-- A normalized order line item as built by the handler's `orderItems` map. -/
structure NormItem where
  title : String
  subtitle : String
  quantity : Nat
  unit_price : ℚ
  fulfilled_quantity : Nat
  delivered_quantity : Nat
  shipped_quantity : Nat
  return_requested_quantity : Nat
  return_received_quantity : Nat
  return_dismissed_quantity : Nat
  written_off_quantity : Nat
  meta_variant_sku : String
  meta_index : Nat
deriving DecidableEq, Repr

/-- One element of the `body.items.map((item, index) => ...)` normalization.
`unit_price` is passed through unchanged ("Already in dollars from frontend"). -/
def normItem (item : OrderItemReq) (index : Nat) : NormItem :=
  { title := item.title
    subtitle := if item.product_title = "" then item.title else item.product_title
    quantity := item.quantity
    unit_price := item.unit_price
    fulfilled_quantity := 0
    delivered_quantity := 0
    shipped_quantity := 0
    return_requested_quantity := 0
    return_received_quantity := 0
    return_dismissed_quantity := 0
    written_off_quantity := 0
    meta_variant_sku := item.variant_sku.getD ""
    meta_index := index }

/-- An address record as passed to `createOrders` (optional fields default
to the empty string, country code lowercased). -/
structure OrderAddress where
  first_name : String
  last_name : String
  address_1 : String
  address_2 : String
  city : String
  province : String
  postal_code : String
  country_code : String
  phone : String
deriving DecidableEq, Repr

def mkOrderAddress (a : ShippingAddress) : OrderAddress :=
  { first_name := a.first_name
    last_name := a.last_name
    address_1 := a.address_1
    address_2 := a.address_2.getD ""
    city := a.city
    province := a.province
    postal_code := a.postal_code
    country_code := a.country_code.toLower
    phone := a.phone.getD "" }

/-- A persisted order record, with the metadata keys the handler writes. -/
structure OrderRec where
  id : String
  email : String
  currency_code : String
  status : String
  shipping_address : OrderAddress
  billing_address : OrderAddress
  items : List NormItem
  shipping_method_name : String
  shipping_amount : ℚ
  region_id : String
  meta_payment_intent_id : String
  meta_merchant_order_id : String
  meta_display_id : String
  meta_payment_provider : String
deriving DecidableEq, Repr

/-- The argument of `orderModuleService.createOrders` in the handler. -/
def mkOrder (newId : String) (body : CreateOrderBody) (addr : ShippingAddress)
    (region : Region) (displayId : String) : OrderRec :=
  { id := newId
    email := body.email
    currency_code := body.currency_code.toLower
    status := "completed"
    shipping_address := mkOrderAddress addr
    billing_address := mkOrderAddress addr
    items := (body.items.enum).map (fun p => normItem p.2 p.1)
    shipping_method_name := body.shipping_method
    shipping_amount := body.shipping_total
    region_id := region.id
    meta_payment_intent_id := body.payment_intent_id
    meta_merchant_order_id := body.merchant_order_id
    meta_display_id := displayId
    meta_payment_provider := "airwallex" }

/-- The JSON outcome of the handler. `duplicateFound` is the 200 early
return of the idempotency check; `created` is the 201 response; the
string fields mirror the JSON body (`id`, `display_id`, `email`,
`currency_code`, `status`, and `total` from the request). -/
inductive PostResult where
  | invalidRequest
  | noRegion
  | duplicateFound (id : String) (display_id : String) (email : String)
      (currency_code : String) (order_status : String) (total : ℚ)
  | created (id : String) (display_id : String) (email : String)
      (currency_code : String) (order_status : String) (total : ℚ)
  | storeError (msg : String)
deriving DecidableEq, Repr

/-- The HTTP status code set by `res.status(...)` for each outcome. -/
def statusOf : PostResult → Nat
  | .invalidRequest => 400
  | .noRegion => 400
  | .duplicateFound _ _ _ _ _ _ => 200
  | .created _ _ _ _ _ _ => 201
  | .storeError _ => 500

/-- Order Store operations the handler can invoke. -/
inductive StoreCall where
  | listOrders
  | createOrder
deriving DecidableEq, Repr

/-- The duplicate-check predicate:
`(o.metadata)?.merchant_order_id === body.merchant_order_id`. -/
def matchesMid (mid : String) (o : OrderRec) : Bool :=
  o.meta_merchant_order_id == mid

/-- The `display_id` field of the duplicate response:
`(existingOrder.metadata)?.display_id || existingOrder.id`. -/
def dupDisplayId (o : OrderRec) : String :=
  if o.meta_display_id = "" then o.id else o.meta_display_id

/-- The `POST` handler of `store/orders/create/route.ts` as a pure function.
Inputs: the regions returned by `listRegions`, whether the
`listAndCountOrders` call throws (`listFails`), whether `createOrders`
throws (`createFails`), the current timestamp, the id the store assigns
to a newly created order, the persisted store contents, and the body.
Output: the response, the resulting store contents, and the sequence of
Order Store calls made. -/
def routePOST (regions : List Region) (listFails : Bool) (createFails : Bool)
    (now : Nat) (newId : String) (store : List OrderRec)
    (body : CreateOrderBody) : PostResult × List OrderRec × List StoreCall :=
  if validBody body = false then (.invalidRequest, store, [])
  else
    match body.shipping_address with
    | none => (.invalidRequest, store, [])
    | some addr =>
      match resolveRegion regions addr.country_code with
      | none => (.noRegion, store, [])
      | some region =>
        let displayId := displayIdOf body.merchant_order_id now
        let existing :=
          if listFails then none
          else store.find? (matchesMid body.merchant_order_id)
        match existing with
        | some ex =>
          (.duplicateFound ex.id (dupDisplayId ex) ex.email ex.currency_code
              "completed" body.total,
            store, [.listOrders])
        | none =>
          if createFails then
            (.storeError "Failed to create order", store,
              [.listOrders, .createOrder])
          else
            let order := mkOrder newId body addr region displayId
            (.created newId displayId order.email order.currency_code
                "completed" body.total,
              store ++ [order], [.listOrders, .createOrder])

end V1

/-- The design document's rounding rule, stated from its words: round-half-up
on `unit_price × 100` to integer minor currency units. Used only to compare
the specified normalization with the one the handler performs. -/
def specMinorUnits (p : ℚ) : ℤ :=
  ⌊p * 100 + 1 / 2⌋

/-- Modelled from the spec: the HTTP status the design document assigns to
`DuplicateInFlight` (409). The lock-based revision of the handler that
raises this failure is not among the sources; only its status code is
specified. -/
def duplicateInFlightStatus : Nat := 409

namespace V2

/-- A payment collection record created by `createPaymentCollections`. -/
structure PayCollection where
  id : String
  currency_code : String
  amount : ℚ
  region_id : String
  status : String
  meta_order_id : String
deriving DecidableEq, Repr

/-- A captured payment record created by `createPayments`. -/
structure PaymentRec where
  amount : ℚ
  currency_code : String
  provider_id : String
  payment_collection_id : String
  data_payment_intent_id : String
  data_provider : String
  captured : Bool
  meta_payment_intent_id : String
  meta_merchant_order_id : String
deriving DecidableEq, Repr

/-- An order record of the second handler revision: `createOrders` is called
without a `status` field, and a later `updateOrders` may add
`payment_collection_id` / `payment_status` to its metadata. -/
structure OrderRec where
  id : String
  email : String
  currency_code : String
  shipping_address : V1.OrderAddress
  billing_address : V1.OrderAddress
  items : List V1.NormItem
  shipping_method_name : String
  shipping_amount : ℚ
  region_id : String
  meta_payment_intent_id : String
  meta_merchant_order_id : String
  meta_display_id : String
  meta_payment_provider : String
  meta_payment_collection_id : Option String
  meta_payment_status : Option String
deriving DecidableEq, Repr

def mkOrder (newId : String) (body : CreateOrderBody) (addr : ShippingAddress)
    (region : Region) (displayId : String) : OrderRec :=
  { id := newId
    email := body.email
    currency_code := body.currency_code.toLower
    shipping_address := V1.mkOrderAddress addr
    billing_address := V1.mkOrderAddress addr
    items := (body.items.enum).map (fun p => V1.normItem p.2 p.1)
    shipping_method_name := body.shipping_method
    shipping_amount := body.shipping_total
    region_id := region.id
    meta_payment_intent_id := body.payment_intent_id
    meta_merchant_order_id := body.merchant_order_id
    meta_display_id := displayId
    meta_payment_provider := "airwallex"
    meta_payment_collection_id := none
    meta_payment_status := none }

/-- The persisted state the second revision touches: orders, payment
collections, payments, and order↔payment-collection remote links. -/
structure State where
  orders : List OrderRec
  payCollections : List PayCollection
  payments : List PaymentRec
  links : List (String × String)
deriving DecidableEq, Repr

/-- Which awaited call inside the payment-linkage `try` block throws, if
any: `0` = `createPaymentCollections`, `1` = `createPayments`,
`2` = `remoteLink.create`, `3` = `updateOrders`. Calls before the failing
one have already taken effect; the `catch` only logs. -/
def linkPayment (failAt : Option Nat) (pcId : String) (body : CreateOrderBody)
    (region : Region) (order : OrderRec) (st : State) : State :=
  let pc : PayCollection :=
    { id := pcId
      currency_code := body.currency_code.toLower
      amount := body.total
      region_id := region.id
      status := "completed"
      meta_order_id := order.id }
  let pay : PaymentRec :=
    { amount := body.total
      currency_code := body.currency_code.toLower
      provider_id := "pp_system_default"
      payment_collection_id := pc.id
      data_payment_intent_id := body.payment_intent_id
      data_provider := "airwallex"
      captured := true
      meta_payment_intent_id := body.payment_intent_id
      meta_merchant_order_id := body.merchant_order_id }
  if failAt = some 0 then st
  else
    let st1 := { st with payCollections := st.payCollections ++ [pc] }
    if failAt = some 1 then st1
    else
      let st2 := { st1 with payments := st1.payments ++ [pay] }
      if failAt = some 2 then st2
      else
        let st3 := { st2 with links := st2.links ++ [(order.id, pc.id)] }
        if failAt = some 3 then st3
        else
          { st3 with
            orders := st3.orders.map (fun o =>
              if o.id = order.id then
                { o with
                  meta_payment_collection_id := some pc.id
                  meta_payment_status := some "captured" }
              else o) }

/-- The `POST` handler of the second revision (payment-linkage variant):
no durable duplicate check; order creation, then a best-effort payment
linkage whose failure is caught and logged; the response reports the
order as created either way, with status string `"pending"`. -/
def routePOST (regions : List Region) (createFails : Bool)
    (failAt : Option Nat) (now : Nat) (newId : String) (pcId : String)
    (st : State) (body : CreateOrderBody) : V1.PostResult × State :=
  if validBody body = false then (.invalidRequest, st)
  else
    match body.shipping_address with
    | none => (.invalidRequest, st)
    | some addr =>
      match resolveRegion regions addr.country_code with
      | none => (.noRegion, st)
      | some region =>
        let displayId := displayIdOf body.merchant_order_id now
        if createFails then (.storeError "Failed to create order", st)
        else
          let order := mkOrder newId body addr region displayId
          let st1 := { st with orders := st.orders ++ [order] }
          let st2 := linkPayment failAt pcId body region order st1
          (.created newId displayId order.email order.currency_code
              "pending" body.total,
            st2)

end V2

namespace Airwallex

/-- The module-level token cache `cachedToken`. -/
structure CachedToken where
  token : String
  expiresAt : Int
deriving DecidableEq, Repr

/-- The outcome of the `POST /authentication/login` fetch: whether
`response.ok`, the parsed `data.token`, the parsed
`new Date(data.expires_at).getTime()`, and the error text otherwise. -/
structure AuthResponse where
  ok : Bool
  token : String
  expiresAtMs : Int
  errorText : String
deriving DecidableEq, Repr

/-- The fetch-and-cache tail of `getAccessToken` (everything after the
cache check): the configuration guard, the login request, and the cache
write on success. Returns the thrown/returned value and the resulting
cache. -/
def fetchFresh (cached : Option CachedToken) (configured : Bool)
    (r : AuthResponse) : Except String String × Option CachedToken :=
  if configured = false then
    (.error ("Airwallex is not configured"), cached)
  else if r.ok = false then
    (.error ("Airwallex authentication failed: " ++ r.errorText), cached)
  else
    (.ok r.token, some { token := r.token, expiresAt := r.expiresAtMs })

/-- `getAccessToken` of `utils/airwallex/client.ts` as a pure function of
the cache, the current time in milliseconds, whether
`AIRWALLEX_CLIENT_ID`/`AIRWALLEX_API_KEY` are set, and the gateway's
response. The cached token is used when
`cachedToken.expiresAt > Date.now() + 60000`. -/
def getAccessToken (cached : Option CachedToken) (nowMs : Int)
    (configured : Bool) (r : AuthResponse) :
    Except String String × Option CachedToken :=
  match cached with
  | some t =>
    if nowMs + 60000 < t.expiresAt then (.ok t.token, some t)
    else fetchFresh cached configured r
  | none => fetchFresh cached configured r

end Airwallex

namespace Coordinator

/-- Modelled from the spec: one `submit` request of the Order Idempotency
Coordinator, reduced to what its control flow depends on — the
merchant-order-id idempotency key and whether the request passes
validation (email, line items, shipping address all present). The
lock-based revision of the handler is not among the sources; its
behavior is taken from the design document's steps 1–8. -/
structure SubmitReq where
  mid : String
  valid : Bool
deriving DecidableEq, Repr

/-- Modelled from the spec: the outcome of one `submit` call —
`created` is `duplicate: false`, `dupTrue` is the durable-check hit
returning `duplicate: true`, `dupInFlight` is the fast-path
`DuplicateInFlight` failure, `invalidReq` is the validation failure. -/
inductive Outcome where
  | created
  | dupTrue
  | dupInFlight
  | invalidReq
deriving DecidableEq, Repr

/-- Modelled from the spec: the control point of one in-flight `submit`
task. `locked` = lock acquired, durable idempotency check pending;
`readyToCreate` = check found no existing order, creation pending.
The two I/O suspension points of the locked region (the store query and
the store insert) are the step boundaries. -/
inductive PState where
  | start
  | locked
  | readyToCreate
  | done (o : Outcome)
deriving DecidableEq, Repr

/-- Modelled from the spec: the shared state — the in-flight lock table
(a set of merchant order ids), the Order Store contents abstracted to
the merchant order ids recorded in order metadata, and the pool of
`submit` tasks. -/
structure State where
  locks : List String
  store : List String
  procs : List (SubmitReq × PState)
deriving DecidableEq, Repr

/-- Modelled from the spec: how one task advances by one atomic step,
reading and writing the lock table and the store. Validation precedes
the lock fast-path; the fast-path check and insert are one atomic step;
the durable check and the creation are separate steps; the lock is
released on every completion path. -/
inductive SubStep : SubmitReq → PState → List String → List String →
    PState → List String → List String → Prop where
  | invalid (req locks store) :
      req.valid = false →
      SubStep req .start locks store (.done .invalidReq) locks store
  | fastDup (req locks store) :
      req.valid = true → req.mid ∈ locks →
      SubStep req .start locks store (.done .dupInFlight) locks store
  | acquire (req locks store) :
      req.valid = true → req.mid ∉ locks →
      SubStep req .start locks store .locked (req.mid :: locks) store
  | checkFound (req locks store) :
      req.mid ∈ store →
      SubStep req .locked locks store (.done .dupTrue)
        (locks.erase req.mid) store
  | checkEmpty (req locks store) :
      req.mid ∉ store →
      SubStep req .locked locks store .readyToCreate locks store
  | create (req locks store) :
      SubStep req .readyToCreate locks store (.done .created)
        (locks.erase req.mid) (req.mid :: store)

/-- Modelled from the spec: the interleaving semantics — any one task of
the pool takes a `SubStep`. -/
inductive Step : State → State → Prop where
  | step (pre post : List (SubmitReq × PState)) (req : SubmitReq)
      (ps ps' : PState) (locks store locks' store' : List String)
      (h : SubStep req ps locks store ps' locks' store') :
      Step ⟨locks, store, pre ++ (req, ps) :: post⟩
        ⟨locks', store', pre ++ (req, ps') :: post⟩

/-- The initial state for a pool of requests: empty lock table, a store
with no order for the contested id, every task at its entry point. -/
def init (reqs : List SubmitReq) : State :=
  ⟨[], [], reqs.map (fun r => (r, PState.start))⟩

/-- Reachability under the interleaving semantics. -/
def Reachable (s s' : State) : Prop :=
  Relation.ReflTransGen Step s s'

/-- Is a task inside the locked region? -/
def inRegion : PState → Bool
  | .locked => true
  | .readyToCreate => true
  | _ => false

/-- Is a task finished with the given outcome? -/
def isDone (o : Outcome) : PState → Bool
  | .done o' => o' == o
  | _ => false

/-- Count the tasks of a pool whose control point satisfies `f`. -/
def cnt (f : PState → Bool) (ps : List (SubmitReq × PState)) : Nat :=
  ps.countP (fun p => f p.2)

/-- Is a task at `readyToCreate`? -/
def isReady : PState → Bool
  | .readyToCreate => true
  | _ => false

lemma cnt_nil (f : PState → Bool) : cnt f [] = 0 := rfl

lemma cnt_cons (f : PState → Bool) (p : SubmitReq × PState)
    (l : List (SubmitReq × PState)) :
    cnt f (p :: l) = cnt f l + (if f p.2 then 1 else 0) := by
  simp [cnt, List.countP_cons]

lemma cnt_append (f : PState → Bool) (l₁ l₂ : List (SubmitReq × PState)) :
    cnt f (l₁ ++ l₂) = cnt f l₁ + cnt f l₂ := by
  simp [cnt, List.countP_append]

/-- Replacing the control point of the distinguished task changes each
count by the difference of the indicator at the old and new points. -/
lemma cnt_update (f : PState → Bool) (pre post : List (SubmitReq × PState))
    (req : SubmitReq) (ps ps' : PState) :
    cnt f (pre ++ (req, ps') :: post) + (if f ps then 1 else 0)
      = cnt f (pre ++ (req, ps) :: post) + (if f ps' then 1 else 0) := by
  simp [cnt_append, cnt_cons]
  omega

lemma cnt_ready_le_inRegion (l : List (SubmitReq × PState)) :
    cnt isReady l ≤ cnt inRegion l := by
  induction l with
  | nil => simp [cnt_nil]
  | cons p l ih =>
    rw [cnt_cons, cnt_cons]
    have : (if isReady p.2 then 1 else 0) ≤ (if inRegion p.2 then 1 else 0) := by
      cases p.2 <;> simp [isReady, inRegion]
    omega

lemma cnt_eq_zero {f : PState → Bool} {l : List (SubmitReq × PState)} :
    cnt f l = 0 ↔ ∀ p ∈ l, f p.2 = false := by
  simp [cnt, List.countP_eq_zero]

lemma cnt_pos_of_mem {f : PState → Bool} {l : List (SubmitReq × PState)}
    {p : SubmitReq × PState} (hp : p ∈ l) (hf : f p.2 = true) :
    1 ≤ cnt f l := by
  by_contra h
  have h0 : cnt f l = 0 := by omega
  have := cnt_eq_zero.mp h0 p hp
  simp [hf] at this

/-- The inductive invariant of the coordinator for a pool of valid
requests all carrying the same merchant order id `m`. -/
structure Inv (m : String) (s : State) : Prop where
  hne : s.procs ≠ []
  hmid : ∀ p ∈ s.procs, p.1.mid = m ∧ p.1.valid = true
  hlocks : (s.locks = [] ∧ cnt inRegion s.procs = 0) ∨
    (s.locks = [m] ∧ cnt inRegion s.procs = 1)
  hstore : ∀ x ∈ s.store, x = m
  hcount : s.store.length = cnt (isDone .created) s.procs
  hstorele : s.store.length ≤ 1
  hready : 1 ≤ cnt isReady s.procs → s.store.length = 0
  hdup : 1 ≤ cnt (isDone .dupTrue) s.procs → 1 ≤ s.store.length
  hdif : 1 ≤ cnt (isDone .dupInFlight) s.procs →
    1 ≤ cnt inRegion s.procs + cnt (isDone .created) s.procs
      + cnt (isDone .dupTrue) s.procs
  hnoinv : cnt (isDone .invalidReq) s.procs = 0

lemma cnt_update_eq (f : PState → Bool) (pre post : List (SubmitReq × PState))
    (req : SubmitReq) (ps ps' : PState) (hf : f ps = f ps') :
    cnt f (pre ++ (req, ps') :: post) = cnt f (pre ++ (req, ps) :: post) := by
  have := cnt_update f pre post req ps ps'
  rw [hf] at this
  omega

lemma cnt_update_incr (f : PState → Bool) (pre post : List (SubmitReq × PState))
    (req : SubmitReq) (ps ps' : PState) (h1 : f ps = false) (h2 : f ps' = true) :
    cnt f (pre ++ (req, ps') :: post) = cnt f (pre ++ (req, ps) :: post) + 1 := by
  have := cnt_update f pre post req ps ps'
  rw [h1, h2] at this
  simp at this
  omega

lemma cnt_update_decr (f : PState → Bool) (pre post : List (SubmitReq × PState))
    (req : SubmitReq) (ps ps' : PState) (h1 : f ps = true) (h2 : f ps' = false) :
    cnt f (pre ++ (req, ps') :: post) + 1 = cnt f (pre ++ (req, ps) :: post) := by
  have := cnt_update f pre post req ps ps'
  rw [h1, h2] at this
  simp at this
  omega

lemma hmid_update {m : String} {pre post : List (SubmitReq × PState)}
    {req : SubmitReq} {ps ps' : PState}
    (h : ∀ p ∈ pre ++ (req, ps) :: post, p.1.mid = m ∧ p.1.valid = true) :
    ∀ p ∈ pre ++ (req, ps') :: post, p.1.mid = m ∧ p.1.valid = true := by
  intro p hp
  rcases List.mem_append.mp hp with h1 | h2
  · exact h p (List.mem_append.mpr (Or.inl h1))
  · rcases List.mem_cons.mp h2 with h3 | h4
    · rw [h3]
      exact h (req, ps) (by simp)
    · exact h p (by simp [h4])

/-- Every step of the interleaving semantics preserves the invariant. -/
lemma step_preserves {m : String} {s s' : State} (hinv : Inv m s)
    (hstep : Step s s') : Inv m s' := by
  obtain ⟨hne, hmid, hlocks, hstore, hcount, hstorele, hready, hdup, hdif,
    hnoinv⟩ := hinv
  cases hstep with
  | step pre post req ps ps' locks store locks' store' h =>
    simp only at hne hmid hlocks hstore hcount hstorele hready hdup hdif hnoinv
    have hreq : req.mid = m ∧ req.valid = true := hmid (req, ps) (by simp)
    cases h with
    | invalid _ _ hv =>
      rw [hreq.2] at hv
      cases hv
    | fastDup _ _ hv hmem =>
      rw [hreq.1] at hmem
      rcases hlocks with ⟨hl, hc⟩ | ⟨hl, hc⟩
      · rw [hl] at hmem
        cases hmem
      · have eR := cnt_update_eq inRegion pre post req .start
          (.done .dupInFlight) rfl
        have eRd := cnt_update_eq isReady pre post req .start
          (.done .dupInFlight) rfl
        have eC := cnt_update_eq (isDone .created) pre post req .start
          (.done .dupInFlight) rfl
        have eT := cnt_update_eq (isDone .dupTrue) pre post req .start
          (.done .dupInFlight) rfl
        have eI := cnt_update_eq (isDone .invalidReq) pre post req .start
          (.done .dupInFlight) rfl
        exact
          { hne := by simp
            hmid := hmid_update hmid
            hlocks := Or.inr ⟨hl, by rw [eR]; exact hc⟩
            hstore := hstore
            hcount := by rw [eC]; exact hcount
            hstorele := hstorele
            hready := by rw [eRd]; exact hready
            hdup := by rw [eT]; exact hdup
            hdif := by rw [eR, eC, eT]; intro _; omega
            hnoinv := by rw [eI]; exact hnoinv }
    | acquire _ _ hv hmem =>
      rcases hlocks with ⟨hl, hc⟩ | ⟨hl, hc⟩
      · have eR := cnt_update_incr inRegion pre post req .start .locked
          rfl rfl
        have eRd := cnt_update_eq isReady pre post req .start .locked rfl
        have eC := cnt_update_eq (isDone .created) pre post req .start
          .locked rfl
        have eT := cnt_update_eq (isDone .dupTrue) pre post req .start
          .locked rfl
        have eI := cnt_update_eq (isDone .invalidReq) pre post req .start
          .locked rfl
        have eD := cnt_update_eq (isDone .dupInFlight) pre post req .start
          .locked rfl
        exact
          { hne := by simp
            hmid := hmid_update hmid
            hlocks := Or.inr ⟨by rw [hl, hreq.1], by rw [eR, hc]⟩
            hstore := hstore
            hcount := by rw [eC]; exact hcount
            hstorele := hstorele
            hready := by rw [eRd]; exact hready
            hdup := by rw [eT]; exact hdup
            hdif := by rw [eR, eC, eT, eD]; intro hx; have := hdif hx; omega
            hnoinv := by rw [eI]; exact hnoinv }
      · rw [hl, hreq.1] at hmem
        simp at hmem
    | checkFound _ _ hmem =>
      have hinR : 1 ≤ cnt inRegion (pre ++ (req, .locked) :: post) :=
        cnt_pos_of_mem (p := (req, .locked)) (by simp) rfl
      rcases hlocks with ⟨hl, hc⟩ | ⟨hl, hc⟩
      · omega
      · have eR := cnt_update_decr inRegion pre post req .locked
          (.done .dupTrue) rfl rfl
        have eRd := cnt_update_eq isReady pre post req .locked
          (.done .dupTrue) rfl
        have eC := cnt_update_eq (isDone .created) pre post req .locked
          (.done .dupTrue) rfl
        have eT := cnt_update_incr (isDone .dupTrue) pre post req .locked
          (.done .dupTrue) rfl rfl
        have eI := cnt_update_eq (isDone .invalidReq) pre post req .locked
          (.done .dupTrue) rfl
        have hstpos : 1 ≤ store.length := List.length_pos.mpr
          (List.ne_nil_of_mem hmem)
        exact
          { hne := by simp
            hmid := hmid_update hmid
            hlocks := Or.inl ⟨by rw [hl, hreq.1]; simp, by
              show cnt inRegion (pre ++ (req, PState.done Outcome.dupTrue) :: post) = 0
              omega⟩
            hstore := hstore
            hcount := by rw [eC]; exact hcount
            hstorele := hstorele
            hready := by rw [eRd]; exact hready
            hdup := fun _ => hstpos
            hdif := by rw [eC, eT]; intro _; omega
            hnoinv := by rw [eI]; exact hnoinv }
    | checkEmpty _ _ hmem =>
      have hstnil : store = [] := by
        rcases store with _ | ⟨x, rest⟩
        · rfl
        · exfalso
          have hx := hstore x (by simp)
          rw [hx] at hmem
          rw [hreq.1] at hmem
          simp at hmem
      have eR := cnt_update_eq inRegion pre post req .locked
        .readyToCreate rfl
      have eRd := cnt_update_incr isReady pre post req .locked
        .readyToCreate rfl rfl
      have eC := cnt_update_eq (isDone .created) pre post req .locked
        .readyToCreate rfl
      have eT := cnt_update_eq (isDone .dupTrue) pre post req .locked
        .readyToCreate rfl
      have eI := cnt_update_eq (isDone .invalidReq) pre post req .locked
        .readyToCreate rfl
      have eD := cnt_update_eq (isDone .dupInFlight) pre post req .locked
        .readyToCreate rfl
      exact
        { hne := by simp
          hmid := hmid_update hmid
          hlocks := by
            rcases hlocks with ⟨hl, hc⟩ | ⟨hl, hc⟩
            · exact Or.inl ⟨hl, by rw [eR]; exact hc⟩
            · exact Or.inr ⟨hl, by rw [eR]; exact hc⟩
          hstore := hstore
          hcount := by rw [eC]; exact hcount
          hstorele := hstorele
          hready := by intro _; rw [hstnil]; rfl
          hdup := by rw [eT]; exact hdup
          hdif := by rw [eR, eC, eT, eD]; exact hdif
          hnoinv := by rw [eI]; exact hnoinv }
    | create =>
      have hrd : 1 ≤ cnt isReady (pre ++ (req, .readyToCreate) :: post) :=
        cnt_pos_of_mem (p := (req, .readyToCreate)) (by simp) rfl
      have hinR : 1 ≤ cnt inRegion (pre ++ (req, .readyToCreate) :: post) :=
        cnt_pos_of_mem (p := (req, .readyToCreate)) (by simp) rfl
      have hstnil : store.length = 0 := hready hrd
      rcases hlocks with ⟨hl, hc⟩ | ⟨hl, hc⟩
      · omega
      · have eR := cnt_update_decr inRegion pre post req .readyToCreate
          (.done .created) rfl rfl
        have eRd := cnt_update_decr isReady pre post req .readyToCreate
          (.done .created) rfl rfl
        have eC := cnt_update_incr (isDone .created) pre post req
          .readyToCreate (.done .created) rfl rfl
        have eT := cnt_update_eq (isDone .dupTrue) pre post req
          .readyToCreate (.done .created) rfl
        have eI := cnt_update_eq (isDone .invalidReq) pre post req
          .readyToCreate (.done .created) rfl
        have hrd' : cnt isReady (pre ++ (req, .done .created) :: post) = 0 := by
          have hle := cnt_ready_le_inRegion
            (pre ++ (req, PState.done .created) :: post)
          omega
        exact
          { hne := by simp
            hmid := hmid_update hmid
            hlocks := Or.inl ⟨by rw [hl, hreq.1]; simp, by
              show cnt inRegion (pre ++ (req, PState.done Outcome.created) :: post) = 0
              omega⟩
            hstore := by
              intro x hx
              rcases List.mem_cons.mp hx with h1 | h2
              · rw [h1, hreq.1]
              · exact hstore x h2
            hcount := by
              rw [eC]
              simp only [List.length_cons]
              omega
            hstorele := by simp only [List.length_cons]; omega
            hready := by rw [hrd']; intro hx; omega
            hdup := by intro _; simp
            hdif := by rw [eC, eT]; intro _; omega
            hnoinv := by rw [eI]; exact hnoinv }

/-- The invariant holds at the initial state. -/
lemma inv_init (m : String) (reqs : List SubmitReq)
    (hm : ∀ r ∈ reqs, r.mid = m ∧ r.valid = true) (hne : reqs ≠ []) :
    Inv m (init reqs) := by
  show Inv m ⟨[], [], reqs.map (fun r => (r, PState.start))⟩
  have hz : ∀ f : PState → Bool, f .start = false →
      cnt f (reqs.map (fun r => (r, PState.start))) = 0 := by
    intro f hf
    rw [cnt_eq_zero]
    intro p hp
    obtain ⟨r, _, hr⟩ := List.mem_map.mp hp
    rw [← hr]
    exact hf
  exact
    { hne := by simp [init, hne]
      hmid := by
        intro p hp
        obtain ⟨r, hr, hpr⟩ := List.mem_map.mp hp
        rw [← hpr]
        exact hm r hr
      hlocks := Or.inl ⟨rfl, hz inRegion rfl⟩
      hstore := by intro x hx; cases hx
      hcount := by rw [hz (isDone .created) rfl]; rfl
      hstorele := by simp [init]
      hready := fun _ => rfl
      hdup := by rw [hz (isDone .dupTrue) rfl]; intro hx; omega
      hdif := by rw [hz (isDone .dupInFlight) rfl]; intro hx; omega
      hnoinv := hz (isDone .invalidReq) rfl }

/-- The invariant holds at every reachable state. -/
lemma inv_reachable {m : String} {s s' : State} (hinv : Inv m s)
    (hr : Reachable s s') : Inv m s' := by
  induction hr with
  | refl => exact hinv
  | tail _ hstep ih => exact step_preserves ih hstep

/-- A pool in which every task is done splits into the four outcome
counts. -/
lemma length_eq_sum_outcomes (ps : List (SubmitReq × PState))
    (hdone : ∀ p ∈ ps, ∃ o, p.2 = .done o) :
    ps.length = cnt (isDone .created) ps + cnt (isDone .dupTrue) ps
      + cnt (isDone .dupInFlight) ps + cnt (isDone .invalidReq) ps := by
  induction ps with
  | nil => rfl
  | cons p l ih =>
    obtain ⟨o, ho⟩ := hdone p (by simp)
    have hrec := ih (fun q hq => hdone q (by simp [hq]))
    rw [List.length_cons, cnt_cons, cnt_cons, cnt_cons, cnt_cons, ho]
    cases o <;> simp [isDone] <;> omega

/-- Every task in a pool with zero count for an outcome avoids it. -/
lemma not_done_of_cnt_zero {o : Outcome} {ps : List (SubmitReq × PState)}
    (hz : cnt (isDone o) ps = 0) {p : SubmitReq × PState} (hp : p ∈ ps) :
    p.2 ≠ .done o := by
  intro hcontra
  have := cnt_eq_zero.mp hz p hp
  rw [hcontra] at this
  simp [isDone] at this

/-- C1: in the coordinator modelled from the spec, for every pool of
concurrent `submit` calls sharing the same `merchant_order_id`, at most
one order with that id is ever in the store (at every reachable state),
and in every completed run exactly one call finishes `created`
(duplicate: false) while every other call finishes `dupTrue`
(duplicate: true) or `dupInFlight` (DuplicateInFlight). -/
theorem coordinator_exactly_once (m : String) (reqs : List SubmitReq)
    (hm : ∀ r ∈ reqs, r.mid = m ∧ r.valid = true) (hne : reqs ≠ []) :
    (∀ s, Reachable (init reqs) s →
      s.store.count m ≤ 1 ∧ ∀ x ∈ s.store, x = m) ∧
    (∀ s, Reachable (init reqs) s → (∀ p ∈ s.procs, ∃ o, p.2 = .done o) →
      cnt (isDone .created) s.procs = 1 ∧ s.store.length = 1 ∧
      ∀ p ∈ s.procs, p.2 = .done .created ∨ p.2 = .done .dupTrue ∨
        p.2 = .done .dupInFlight) := by
  have hinit := inv_init m reqs hm hne
  constructor
  · intro s hr
    have hinv := inv_reachable hinit hr
    exact ⟨le_trans (List.count_le_length _ _) hinv.hstorele, hinv.hstore⟩
  · intro s hr hdone
    have hinv := inv_reachable hinit hr
    have hreg : cnt inRegion s.procs = 0 := by
      rw [cnt_eq_zero]
      intro p hp
      obtain ⟨o, ho⟩ := hdone p hp
      rw [ho]
      rfl
    have hsum := length_eq_sum_outcomes s.procs hdone
    have hlen : s.procs.length ≠ 0 := by
      intro h0
      exact hinv.hne (List.length_eq_zero.mp h0)
    have hcount := hinv.hcount
    have hle := hinv.hstorele
    have hC1 : cnt (isDone .created) s.procs = 1 := by
      by_contra hC
      have hC0 : cnt (isDone .created) s.procs = 0 := by omega
      have hs0 : s.store.length = 0 := by omega
      have hT0 : cnt (isDone .dupTrue) s.procs = 0 := by
        by_contra hT
        have := hinv.hdup (by omega)
        omega
      have hD0 : cnt (isDone .dupInFlight) s.procs = 0 := by
        by_contra hD
        have := hinv.hdif (by omega)
        omega
      have := hinv.hnoinv
      omega
    refine ⟨hC1, by omega, ?_⟩
    intro p hp
    obtain ⟨o, ho⟩ := hdone p hp
    cases o with
    | created => exact Or.inl ho
    | dupTrue => exact Or.inr (Or.inl ho)
    | dupInFlight => exact Or.inr (Or.inr ho)
    | invalidReq => exact absurd ho (not_done_of_cnt_zero hinv.hnoinv hp)

/-- Witness for C1: two concurrent submissions with the same merchant
order id `"mo_1"`. -/
theorem coordinator_exactly_once_witness :
    (∀ s, Reachable (init [⟨"mo_1", true⟩, ⟨"mo_1", true⟩]) s →
      s.store.count "mo_1" ≤ 1 ∧ ∀ x ∈ s.store, x = "mo_1") ∧
    (∀ s, Reachable (init [⟨"mo_1", true⟩, ⟨"mo_1", true⟩]) s →
      (∀ p ∈ s.procs, ∃ o, p.2 = .done o) →
      cnt (isDone .created) s.procs = 1 ∧ s.store.length = 1 ∧
      ∀ p ∈ s.procs, p.2 = .done .created ∨ p.2 = .done .dupTrue ∨
        p.2 = .done .dupInFlight) :=
  coordinator_exactly_once "mo_1" [⟨"mo_1", true⟩, ⟨"mo_1", true⟩]
    (by decide) (by decide)

/-- Sanity check that the completed-run hypothesis of the exactly-once
theorem is satisfiable: an explicit interleaving of two submissions that
drives both tasks to completion (the second hits the fast-path
`DuplicateInFlight` while the first holds the lock). -/
lemma completed_run_exists :
    ∃ s : State, Reachable (init [⟨"mo_1", true⟩, ⟨"mo_1", true⟩]) s ∧
      (∀ p ∈ s.procs, ∃ o, p.2 = .done o) := by
  refine ⟨⟨[], ["mo_1"], [(⟨"mo_1", true⟩, .done .created),
    (⟨"mo_1", true⟩, .done .dupInFlight)]⟩, ?_, ?_⟩
  · have h1 : Step (init [⟨"mo_1", true⟩, ⟨"mo_1", true⟩])
        ⟨["mo_1"], [], [(⟨"mo_1", true⟩, .locked), (⟨"mo_1", true⟩, .start)]⟩ :=
      Step.step [] [(⟨"mo_1", true⟩, .start)] ⟨"mo_1", true⟩ .start .locked
        [] [] ["mo_1"] [] (SubStep.acquire _ _ _ rfl (by simp))
    have h2 : Step
        ⟨["mo_1"], [], [(⟨"mo_1", true⟩, .locked), (⟨"mo_1", true⟩, .start)]⟩
        ⟨["mo_1"], [], [(⟨"mo_1", true⟩, .readyToCreate),
          (⟨"mo_1", true⟩, .start)]⟩ :=
      Step.step [] [(⟨"mo_1", true⟩, .start)] ⟨"mo_1", true⟩ .locked
        .readyToCreate ["mo_1"] [] ["mo_1"] []
        (SubStep.checkEmpty _ _ _ (by simp))
    have h3 : Step
        ⟨["mo_1"], [], [(⟨"mo_1", true⟩, .readyToCreate),
          (⟨"mo_1", true⟩, .start)]⟩
        ⟨["mo_1"], [], [(⟨"mo_1", true⟩, .readyToCreate),
          (⟨"mo_1", true⟩, .done .dupInFlight)]⟩ :=
      Step.step [(⟨"mo_1", true⟩, .readyToCreate)] [] ⟨"mo_1", true⟩ .start
        (.done .dupInFlight) ["mo_1"] [] ["mo_1"] []
        (SubStep.fastDup _ _ _ rfl (by simp))
    have h4 : Step
        ⟨["mo_1"], [], [(⟨"mo_1", true⟩, .readyToCreate),
          (⟨"mo_1", true⟩, .done .dupInFlight)]⟩
        ⟨[], ["mo_1"], [(⟨"mo_1", true⟩, .done .created),
          (⟨"mo_1", true⟩, .done .dupInFlight)]⟩ := by
      have := Step.step [] [(⟨"mo_1", true⟩, PState.done .dupInFlight)]
        ⟨"mo_1", true⟩ .readyToCreate (.done .created) ["mo_1"] []
        (["mo_1"].erase "mo_1") ["mo_1"] (SubStep.create _ _ _)
      simpa using this
    exact Relation.ReflTransGen.head h1 (Relation.ReflTransGen.head h2
      (Relation.ReflTransGen.head h3 (Relation.ReflTransGen.single h4)))
  · intro p hp
    simp only [List.mem_cons, List.mem_singleton] at hp
    rcases hp with h | h
    · exact ⟨.created, by rw [h]⟩
    · rcases h with h | h
      · exact ⟨.dupInFlight, by rw [h]⟩
      · cases h

end Coordinator

/-! Sample data for concrete instantiations. -/

def euRegion : Region := ⟨"reg_eu", [⟨"de"⟩, ⟨"fr"⟩]⟩

def usRegion : Region := ⟨"reg_us", [⟨"us"⟩]⟩

def sampleAddr : ShippingAddress :=
  ⟨"Ada", "L", "1 Main St", none, "Berlin", "BE", "10115", "JP", none⟩

def sampleBody : CreateOrderBody :=
  { email := "a@b.co"
    currency_code := "USD"
    items := [⟨"Tee", "Shirt", 1, (19995 : ℚ) / 1000, some "SKU1"⟩]
    shipping_address := some sampleAddr
    shipping_method := "Std"
    shipping_total := 5
    subtotal := 20
    tax_total := 0
    total := 25
    payment_intent_id := "pi_1"
    merchant_order_id := "mo_1" }

/-! Claim theorems. -/

/-- C5: region resolution matches the shipping country against each
region's country list case-insensitively; on a match the first matching
region is selected; with a non-empty list and no match the first region
is selected; with an empty region list the handler fails with the
no-region error. -/
theorem region_resolution_spec (regions : List Region) (cc : String)
    (listFails createFails : Bool) (now : Nat) (newId : String)
    (store : List V1.OrderRec) (body : CreateOrderBody) :
    (∀ c : Country, countryMatches cc c = true ↔ c.iso_2.toLower = cc.toLower) ∧
    ((∃ r ∈ regions, r.countries.any (countryMatches cc) = true) →
      ∃ r', resolveRegion regions cc = some r' ∧ r' ∈ regions ∧
        r'.countries.any (countryMatches cc) = true) ∧
    (regions ≠ [] →
      (∀ r ∈ regions, r.countries.any (countryMatches cc) = false) →
      resolveRegion regions cc = regions.head?) ∧
    (validBody body = true →
      (V1.routePOST [] listFails createFails now newId store body).1
        = .noRegion) := by
  refine ⟨?_, ?_, ?_, ?_⟩
  · intro c
    simp [countryMatches]
  · intro hex
    have hsome : (regions.find? (fun r =>
        r.countries.any (countryMatches cc))).isSome := by
      rw [List.find?_isSome]
      obtain ⟨r, hr, hm⟩ := hex
      exact ⟨r, hr, hm⟩
    obtain ⟨r', hr'⟩ := Option.isSome_iff_exists.mp hsome
    refine ⟨r', ?_, List.mem_of_find?_eq_some hr', ?_⟩
    · simp [resolveRegion, hr']
    · have := List.find?_some hr'
      simpa using this
  · intro _ hall
    have hnone : regions.find? (fun r =>
        r.countries.any (countryMatches cc)) = none := by
      rw [List.find?_eq_none]
      intro r hr
      simp [hall r hr]
    simp [resolveRegion, hnone]
  · intro hv
    unfold V1.routePOST
    rw [hv]
    rcases hb : body.shipping_address with _ | addr
    · exfalso
      simp [validBody, hb] at hv
    · simp [resolveRegion]

/-- String lowercasing unfolded to a character-wise map, so that concrete
country-code comparisons evaluate. -/
lemma countryMatches_eval (cc : String) (c : Country) :
    countryMatches cc c
      = (String.mk (c.iso_2.data.map Char.toLower)
          == String.mk (cc.data.map Char.toLower)) := by
  simp only [countryMatches, String.toLower, String.map_eq]

lemma euRegion_no_jp : euRegion.countries.any (countryMatches "jp") = false := by
  simp only [euRegion, List.any_cons, List.any_nil, countryMatches_eval]
  decide

lemma usRegion_no_jp : usRegion.countries.any (countryMatches "jp") = false := by
  simp only [usRegion, List.any_cons, List.any_nil, countryMatches_eval]
  decide

/-- Witness for C5, using the design document's own example: regions
`[EU(de,fr), US(us)]` and shipping country `jp` resolve to the first
region `EU`, and the empty region list yields the no-region failure. -/
theorem region_resolution_spec_witness :
    resolveRegion [euRegion, usRegion] "jp" = some euRegion ∧
    (V1.routePOST [] false false 0 "ord_1" [] sampleBody).1
      = .noRegion := by
  have h := region_resolution_spec [euRegion, usRegion] "jp" false false 0
    "ord_1" [] sampleBody
  have h0 := region_resolution_spec [] "jp" false false 0 "ord_1" []
    sampleBody
  constructor
  · have hall : ∀ r ∈ [euRegion, usRegion],
        r.countries.any (countryMatches "jp") = false := by
      intro r hr
      simp only [List.mem_cons, List.not_mem_nil, or_false] at hr
      rcases hr with h1 | h1 <;> rw [h1]
      · exact euRegion_no_jp
      · exact usRegion_no_jp
    rw [h.2.2.1 (by simp) hall]
    rfl
  · exact h0.2.2.2 (by decide)

/-- C3 counterexample: at unit price `19.995` the handler's item
normalization keeps `19.995` unchanged (dollar pass-through, per the
source comment), while the claimed round-half-up minor-unit rule yields
`2000`; the two disagree. -/
theorem rounding_claim_counterexample :
    (V1.normItem ⟨"Tee", "Shirt", 1, (19995 : ℚ) / 1000, none⟩ 0).unit_price
      = (19995 : ℚ) / 1000 ∧
    specMinorUnits ((19995 : ℚ) / 1000) = 2000 ∧
    (V1.normItem ⟨"Tee", "Shirt", 1, (19995 : ℚ) / 1000, none⟩ 0).unit_price
      ≠ ((2000 : ℤ) : ℚ) := by
  refine ⟨rfl, by norm_num [specMinorUnits], ?_⟩
  show (19995 : ℚ) / 1000 ≠ ((2000 : ℤ) : ℚ)
  norm_num

/-- C3 amended: the handler stores each line item's `unit_price` and the
order's shipping amount exactly as supplied (decimal major currency
units), with no ×100 conversion and no rounding. -/
theorem unit_price_passthrough (item : OrderItemReq) (index : Nat)
    (newId : String) (body : CreateOrderBody) (addr : ShippingAddress)
    (region : Region) (displayId : String) :
    (V1.normItem item index).unit_price = item.unit_price ∧
    (V1.mkOrder newId body addr region displayId).shipping_amount
      = body.shipping_total ∧
    (V1.mkOrder newId body addr region displayId).items
      = (body.items.enum).map (fun p => V1.normItem p.2 p.1) :=
  ⟨rfl, rfl, rfl⟩

/-- C6 counterexample: with an empty region list and a valid body the
handler responds with HTTP 400 (`res.status(400)`), not the claimed 500. -/
theorem status_claim_counterexample :
    (V1.routePOST [] false false 0 "ord_1" [] sampleBody).1
      = .noRegion ∧
    V1.statusOf (V1.routePOST [] false false 0 "ord_1" [] sampleBody).1
      = 400 ∧
    V1.statusOf (V1.routePOST [] false false 0 "ord_1" [] sampleBody).1
      ≠ 500 := by
  refine ⟨?_, ?_, ?_⟩ <;> decide

/-- C6 amended: `InvalidRequest` responds 400, `DuplicateInFlight` is
specified as 409 (the lock-based revision is not among the sources),
`NoRegionAvailable` responds 400 (not 500), and `StoreError` responds
500. -/
theorem error_status_codes (msg : String) :
    V1.statusOf .invalidRequest = 400 ∧
    duplicateInFlightStatus = 409 ∧
    V1.statusOf .noRegion = 400 ∧
    V1.statusOf (.storeError msg) = 500 :=
  ⟨rfl, rfl, rfl, rfl⟩

/-- C7: a request missing its email, with an empty item list, or missing
its shipping address fails with `InvalidRequest` before any side effect:
the handler makes no Order Store call and leaves the store unchanged,
and in the coordinator a validation failure resolves from `start`
without touching the lock table or the store. -/
theorem validation_before_side_effects (regions : List Region)
    (listFails createFails : Bool) (now : Nat) (newId : String)
    (store : List V1.OrderRec) (body : CreateOrderBody)
    (hv : validBody body = false)
    (req : Coordinator.SubmitReq) (hrv : req.valid = false)
    (locks st : List String) :
    V1.routePOST regions listFails createFails now newId store body
      = (.invalidRequest, store, []) ∧
    (∀ ps' locks' store',
      Coordinator.SubStep req .start locks st ps' locks' store' →
      ps' = .done .invalidReq ∧ locks' = locks ∧ store' = st) := by
  constructor
  · unfold V1.routePOST
    rw [hv]
    simp
  · intro ps' locks' store' h
    cases h
    case invalid => exact ⟨rfl, rfl, rfl⟩
    case fastDup => simp_all
    case acquire => simp_all

/-- An invalid request body: the email is missing. -/
def invalidBody : CreateOrderBody := { sampleBody with email := "" }

/-- Witness for C7 at the concrete invalid body (missing email) and a
concrete invalid coordinator request. -/
theorem validation_before_side_effects_witness :
    validBody invalidBody = false ∧
    (V1.routePOST [euRegion] false false 0 "ord_1" [] invalidBody
      = (.invalidRequest, [], []) ∧
    (∀ ps' locks' store',
      Coordinator.SubStep ⟨"mo_1", false⟩ .start [] [] ps' locks' store' →
      ps' = .done .invalidReq ∧ locks' = [] ∧ store' = [])) :=
  ⟨by decide,
    validation_before_side_effects [euRegion] false false 0 "ord_1" []
      invalidBody (by decide) ⟨"mo_1", false⟩ rfl [] []⟩

lemma displayIdOf_ne_empty (mid : String) (now : Nat) :
    displayIdOf mid now ≠ "" := by
  unfold displayIdOf
  split
  · intro h
    have hlen := congrArg String.length h
    rw [String.length_append] at hlen
    have h4 : ("31N-" : String).length = 4 := rfl
    have h0 : ("" : String).length = 0 := rfl
    omega
  · assumption

lemma find?_append_of_none {α : Type} (p : α → Bool) (l1 l2 : List α)
    (h : ∀ x ∈ l1, p x = false) : (l1 ++ l2).find? p = l2.find? p := by
  induction l1 with
  | nil => rfl
  | cons a l ih =>
    have ha := h a (by simp)
    rw [List.cons_append, List.find?_cons, ha]
    exact ih (fun x hx => h x (by simp [hx]))

/-- C2: sequential idempotence of the handler. With no pre-existing
order for the merchant order id, the first call creates the order and
responds 201; a second call after it completes finds the stored order,
responds with the existing order's identity via the 200 duplicate
branch, and leaves the store unchanged with exactly one matching
order. -/
theorem route_sequential_idempotent (regions : List Region)
    (now1 now2 : Nat) (id1 id2 : String) (store : List V1.OrderRec)
    (body : CreateOrderBody) (addr : ShippingAddress) (region : Region)
    (hsa : body.shipping_address = some addr)
    (hv : validBody body = true)
    (hr : resolveRegion regions addr.country_code = some region)
    (hnodup : ∀ o ∈ store, V1.matchesMid body.merchant_order_id o = false) :
    V1.routePOST regions false false now1 id1 store body
      = (.created id1 (displayIdOf body.merchant_order_id now1) body.email
          body.currency_code.toLower "completed" body.total,
        store ++ [V1.mkOrder id1 body addr region
          (displayIdOf body.merchant_order_id now1)],
        [.listOrders, .createOrder]) ∧
    V1.routePOST regions false false now2 id2
        (store ++ [V1.mkOrder id1 body addr region
          (displayIdOf body.merchant_order_id now1)]) body
      = (.duplicateFound id1 (displayIdOf body.merchant_order_id now1)
          body.email body.currency_code.toLower "completed" body.total,
        store ++ [V1.mkOrder id1 body addr region
          (displayIdOf body.merchant_order_id now1)],
        [.listOrders]) ∧
    (store ++ [V1.mkOrder id1 body addr region
        (displayIdOf body.merchant_order_id now1)]).countP
      (V1.matchesMid body.merchant_order_id) = 1 := by
  set dId := displayIdOf body.merchant_order_id now1 with hdid
  set order1 := V1.mkOrder id1 body addr region dId with horder
  have hfind0 : store.find? (V1.matchesMid body.merchant_order_id) = none :=
    List.find?_eq_none.mpr (fun o ho => by simp [hnodup o ho])
  have hmatch : V1.matchesMid body.merchant_order_id order1 = true := by
    simp [V1.matchesMid, horder, V1.mkOrder]
  have hfind1 : (store ++ [order1]).find?
      (V1.matchesMid body.merchant_order_id) = some order1 := by
    rw [find?_append_of_none _ _ _ (fun o ho => by simp [hnodup o ho])]
    rw [List.find?_cons, hmatch]
  have hdup : V1.dupDisplayId order1 = dId := by
    unfold V1.dupDisplayId
    have hm : order1.meta_display_id = dId := rfl
    rw [hm]
    rw [if_neg (by rw [hdid]; exact displayIdOf_ne_empty _ _)]
  refine ⟨?_, ?_, ?_⟩
  · unfold V1.routePOST
    rw [hv]
    simp only [Bool.true_eq_false, if_false, hsa, hr, hfind0]
    rfl
  · unfold V1.routePOST
    rw [hv]
    simp only [Bool.true_eq_false, if_false, hsa, hr, hfind1]
    show (V1.PostResult.duplicateFound order1.id (V1.dupDisplayId order1)
        order1.email order1.currency_code "completed" body.total,
      store ++ [order1], [V1.StoreCall.listOrders]) = _
    rw [hdup]
    rfl
  · rw [List.countP_append, List.countP_eq_zero.mpr
      (fun o ho => by simp [hnodup o ho])]
    simp [hmatch]

/-- C9: when `listAndCountOrders` throws during the durable idempotency
check, the handler swallows the error and proceeds to create a new
order: no store failure is surfaced, and the count of orders carrying
the merchant order id grows by one even if one already existed. -/
theorem list_failure_swallowed (regions : List Region) (now : Nat)
    (newId : String) (store : List V1.OrderRec) (body : CreateOrderBody)
    (addr : ShippingAddress) (region : Region)
    (hsa : body.shipping_address = some addr)
    (hv : validBody body = true)
    (hr : resolveRegion regions addr.country_code = some region) :
    V1.routePOST regions true false now newId store body
      = (.created newId (displayIdOf body.merchant_order_id now) body.email
          body.currency_code.toLower "completed" body.total,
        store ++ [V1.mkOrder newId body addr region
          (displayIdOf body.merchant_order_id now)],
        [.listOrders, .createOrder]) ∧
    (store ++ [V1.mkOrder newId body addr region
        (displayIdOf body.merchant_order_id now)]).countP
      (V1.matchesMid body.merchant_order_id)
      = store.countP (V1.matchesMid body.merchant_order_id) + 1 := by
  constructor
  · unfold V1.routePOST
    rw [hv]
    simp only [Bool.true_eq_false, if_false, hsa, hr]
    rfl
  · rw [List.countP_append]
    have hmatch : V1.matchesMid body.merchant_order_id
        (V1.mkOrder newId body addr region
          (displayIdOf body.merchant_order_id now)) = true := by
      simp [V1.matchesMid, V1.mkOrder]
    simp [hmatch]

/-- C4: when order creation succeeds, the payment-linkage step of the
second handler revision never affects the response: wherever the try
block fails (payment collection, captured payment, remote link, or the
metadata update), the handler still responds 201 with the created
order's id and display id, and the order remains in the store. -/
theorem payment_link_failure_swallowed (regions : List Region)
    (failAt : Option Nat) (now : Nat) (newId pcId : String)
    (st : V2.State) (body : CreateOrderBody) (addr : ShippingAddress)
    (region : Region)
    (hsa : body.shipping_address = some addr)
    (hv : validBody body = true)
    (hr : resolveRegion regions addr.country_code = some region) :
    (V2.routePOST regions false failAt now newId pcId st body).1
      = .created newId (displayIdOf body.merchant_order_id now) body.email
          body.currency_code.toLower "pending" body.total ∧
    (V2.routePOST regions false failAt now newId pcId st body).1
      = (V2.routePOST regions false none now newId pcId st body).1 ∧
    V1.statusOf (V2.routePOST regions false failAt now newId pcId st body).1
      = 201 ∧
    (∃ o ∈ (V2.routePOST regions false failAt now newId pcId st body).2.orders,
      o.id = newId ∧ o.meta_merchant_order_id = body.merchant_order_id ∧
      o.meta_display_id = displayIdOf body.merchant_order_id now) := by
  have hres : ∀ fa : Option Nat,
      V2.routePOST regions false fa now newId pcId st body
        = (.created newId (displayIdOf body.merchant_order_id now) body.email
            body.currency_code.toLower "pending" body.total,
          V2.linkPayment fa pcId body region
            (V2.mkOrder newId body addr region
              (displayIdOf body.merchant_order_id now))
            { st with orders := st.orders ++ [V2.mkOrder newId body addr region
              (displayIdOf body.merchant_order_id now)] }) := by
    intro fa
    unfold V2.routePOST
    rw [hv]
    simp only [Bool.true_eq_false, if_false, hsa, hr]
    rfl
  have horder : ∀ fa : Option Nat,
      ∃ o ∈ (V2.linkPayment fa pcId body region
          (V2.mkOrder newId body addr region
            (displayIdOf body.merchant_order_id now))
          { st with orders := st.orders ++ [V2.mkOrder newId body addr region
            (displayIdOf body.merchant_order_id now)] }).orders,
        o.id = newId ∧ o.meta_merchant_order_id = body.merchant_order_id ∧
        o.meta_display_id = displayIdOf body.merchant_order_id now := by
    intro fa
    set order := V2.mkOrder newId body addr region
      (displayIdOf body.merchant_order_id now) with ho
    have hin : order ∈ st.orders ++ [order] := by simp
    unfold V2.linkPayment
    split_ifs
    · exact ⟨order, hin, rfl, rfl, rfl⟩
    · exact ⟨order, hin, rfl, rfl, rfl⟩
    · exact ⟨order, hin, rfl, rfl, rfl⟩
    · exact ⟨order, hin, rfl, rfl, rfl⟩
    · refine ⟨{ order with
          meta_payment_collection_id := some pcId
          meta_payment_status := some "captured" }, ?_, rfl, rfl, rfl⟩
      simp only []
      refine List.mem_map.mpr ⟨order, hin, ?_⟩
      rw [if_pos rfl]
  refine ⟨?_, ?_, ?_, ?_⟩
  · rw [hres failAt]
  · rw [hres failAt, hres none]
  · rw [hres failAt]
    rfl
  · rw [hres failAt]
    exact horder failAt

/-- C8: `getAccessToken` returns the cached credential exactly when more
than 60 seconds remain before its expiry (`expiresAt > now + 60000`);
otherwise — including at exactly 60 seconds remaining — it performs a
fresh fetch, which on a successful response yields and caches the
gateway's new token. -/
theorem token_cache_buffer (t : Airwallex.CachedToken) (now : Int)
    (conf : Bool) (r : Airwallex.AuthResponse) :
    (now + 60000 < t.expiresAt →
      Airwallex.getAccessToken (some t) now conf r = (.ok t.token, some t)) ∧
    (¬ now + 60000 < t.expiresAt →
      Airwallex.getAccessToken (some t) now conf r
        = Airwallex.fetchFresh (some t) conf r) ∧
    (conf = true → r.ok = true →
      Airwallex.fetchFresh (some t) conf r
        = (.ok r.token, some ⟨r.token, r.expiresAtMs⟩)) := by
  refine ⟨?_, ?_, ?_⟩
  · intro h
    simp [Airwallex.getAccessToken, h]
  · intro h
    simp [Airwallex.getAccessToken, h]
  · intro hc hok
    simp [Airwallex.fetchFresh, hc, hok]

/-- Witness for C8: a token with more than 60 s to expiry is served from
the cache; a token with exactly 60 s to expiry is refreshed from the
gateway's response, which replaces the cache. -/
theorem token_cache_buffer_witness :
    Airwallex.getAccessToken (some ⟨"tok", 1000000⟩) 0 true
        ⟨true, "fresh", 5000000, ""⟩
      = (.ok "tok", some ⟨"tok", 1000000⟩) ∧
    Airwallex.getAccessToken (some ⟨"tok", 60000⟩) 0 true
        ⟨true, "fresh", 5000000, ""⟩
      = (.ok "fresh", some ⟨"fresh", 5000000⟩) := by
  have h1 := token_cache_buffer ⟨"tok", 1000000⟩ 0 true
    ⟨true, "fresh", 5000000, ""⟩
  have h2 := token_cache_buffer ⟨"tok", 60000⟩ 0 true
    ⟨true, "fresh", 5000000, ""⟩
  refine ⟨h1.1 (by norm_num), ?_⟩
  rw [h2.2.1 (by norm_num), h2.2.2 rfl rfl]

/-- C10: when `getAccessToken` fails (credentials not configured, or the
gateway's authentication response is not OK) the cached-token state is
returned unchanged, and any change to the cache implies the call
succeeded with the response's fresh token. -/
theorem token_cache_unchanged_on_failure
    (cached : Option Airwallex.CachedToken) (now : Int) (conf : Bool)
    (r : Airwallex.AuthResponse) :
    (∀ e, (Airwallex.getAccessToken cached now conf r).1 = .error e →
      (Airwallex.getAccessToken cached now conf r).2 = cached) ∧
    ((Airwallex.getAccessToken cached now conf r).2 ≠ cached →
      conf = true ∧ r.ok = true ∧
      (Airwallex.getAccessToken cached now conf r).1 = .ok r.token ∧
      (Airwallex.getAccessToken cached now conf r).2
        = some ⟨r.token, r.expiresAtMs⟩) := by
  have hf : (Airwallex.fetchFresh cached conf r).2 ≠ cached →
      conf = true ∧ r.ok = true ∧
      (Airwallex.fetchFresh cached conf r).1 = .ok r.token ∧
      (Airwallex.fetchFresh cached conf r).2
        = some ⟨r.token, r.expiresAtMs⟩ := by
    intro hne
    unfold Airwallex.fetchFresh at hne ⊢
    rcases hc : conf with _ | _
    · simp [hc] at hne
    · rcases hok : r.ok with _ | _
      · simp [hc, hok] at hne
      · simp [hc, hok]
  have hferr : ∀ e, (Airwallex.fetchFresh cached conf r).1 = .error e →
      (Airwallex.fetchFresh cached conf r).2 = cached := by
    intro e herr
    unfold Airwallex.fetchFresh at herr ⊢
    rcases hc : conf with _ | _
    · simp [hc]
    · rcases hok : r.ok with _ | _
      · simp [hc, hok]
      · simp [hc, hok] at herr
  rcases cached with _ | t
  · exact ⟨hferr, hf⟩
  · by_cases hbuf : now + 60000 < t.expiresAt
    · constructor
      · intro e herr
        simp [Airwallex.getAccessToken, hbuf] at herr
      · intro hne
        exfalso
        apply hne
        simp [Airwallex.getAccessToken, hbuf]
    · constructor
      · intro e herr
        have : Airwallex.getAccessToken (some t) now conf r
            = Airwallex.fetchFresh (some t) conf r := by
          simp [Airwallex.getAccessToken, hbuf]
        rw [this] at herr ⊢
        exact hferr e herr
      · intro hne
        have : Airwallex.getAccessToken (some t) now conf r
            = Airwallex.fetchFresh (some t) conf r := by
          simp [Airwallex.getAccessToken, hbuf]
        rw [this] at hne ⊢
        exact hf hne

/-- Witness for C10: an unconfigured client and a rejected login each
leave the cache as it was. -/
theorem token_cache_unchanged_on_failure_witness :
    (Airwallex.getAccessToken none 0 false ⟨false, "", 0, "boom"⟩).2
      = none ∧
    (Airwallex.getAccessToken (some ⟨"tok", 1⟩) 0 true
        ⟨false, "", 0, "boom"⟩).2
      = some ⟨"tok", 1⟩ :=
  ⟨(token_cache_unchanged_on_failure none 0 false ⟨false, "", 0, "boom"⟩).1
      ("Airwallex is not configured") rfl,
    (token_cache_unchanged_on_failure (some ⟨"tok", 1⟩) 0 true
        ⟨false, "", 0, "boom"⟩).1
      ("Airwallex authentication failed: boom") rfl⟩

/-- Concrete region resolution for the sample shipping country `"JP"`:
neither sample region lists it, so the first region is the fallback. -/
lemma resolveRegion_JP :
    resolveRegion [euRegion, usRegion] "JP" = some euRegion := by
  have heu : euRegion.countries.any (countryMatches "JP") = false := by
    simp only [euRegion, List.any_cons, List.any_nil, countryMatches_eval]
    decide
  have hus : usRegion.countries.any (countryMatches "JP") = false := by
    simp only [usRegion, List.any_cons, List.any_nil, countryMatches_eval]
    decide
  simp [resolveRegion, List.find?_cons, heu, hus]

/-- Witness for C2, at the sample request: the first call creates the
order, the second returns the duplicate branch with the first order's
identity and leaves the store unchanged. -/
theorem route_sequential_idempotent_witness :
    V1.routePOST [euRegion, usRegion] false false 111 "ord_1" [] sampleBody
      = (.created "ord_1" (displayIdOf sampleBody.merchant_order_id 111)
          sampleBody.email sampleBody.currency_code.toLower "completed"
          sampleBody.total,
        [] ++ [V1.mkOrder "ord_1" sampleBody sampleAddr euRegion
          (displayIdOf sampleBody.merchant_order_id 111)],
        [.listOrders, .createOrder]) ∧
    V1.routePOST [euRegion, usRegion] false false 222 "ord_2"
        ([] ++ [V1.mkOrder "ord_1" sampleBody sampleAddr euRegion
          (displayIdOf sampleBody.merchant_order_id 111)]) sampleBody
      = (.duplicateFound "ord_1" (displayIdOf sampleBody.merchant_order_id 111)
          sampleBody.email sampleBody.currency_code.toLower "completed"
          sampleBody.total,
        [] ++ [V1.mkOrder "ord_1" sampleBody sampleAddr euRegion
          (displayIdOf sampleBody.merchant_order_id 111)],
        [.listOrders]) ∧
    ([] ++ [V1.mkOrder "ord_1" sampleBody sampleAddr euRegion
        (displayIdOf sampleBody.merchant_order_id 111)]).countP
      (V1.matchesMid sampleBody.merchant_order_id) = 1 :=
  route_sequential_idempotent [euRegion, usRegion] 111 222 "ord_1" "ord_2"
    [] sampleBody sampleAddr euRegion rfl (by decide) resolveRegion_JP
    (by simp)

/-- A pre-existing order carrying the sample merchant order id. -/
def store0 : List V1.OrderRec :=
  [V1.mkOrder "ord_0" sampleBody sampleAddr euRegion "mo_1"]

/-- Witness for C9: with a pre-existing order for the id and a failing
listing call, the handler creates a second order for the same id. -/
theorem list_failure_swallowed_witness :
    V1.routePOST [euRegion, usRegion] true false 333 "ord_9" store0
        sampleBody
      = (.created "ord_9" (displayIdOf sampleBody.merchant_order_id 333)
          sampleBody.email sampleBody.currency_code.toLower "completed"
          sampleBody.total,
        store0 ++ [V1.mkOrder "ord_9" sampleBody sampleAddr euRegion
          (displayIdOf sampleBody.merchant_order_id 333)],
        [.listOrders, .createOrder]) ∧
    (store0 ++ [V1.mkOrder "ord_9" sampleBody sampleAddr euRegion
        (displayIdOf sampleBody.merchant_order_id 333)]).countP
      (V1.matchesMid sampleBody.merchant_order_id)
      = store0.countP (V1.matchesMid sampleBody.merchant_order_id) + 1 :=
  list_failure_swallowed [euRegion, usRegion] 333 "ord_9" store0 sampleBody
    sampleAddr euRegion rfl (by decide) resolveRegion_JP

/-- Witness for C4: the empty state, with the payment-collection
creation failing, still yields a 201 created response and the persisted
order. -/
theorem payment_link_failure_swallowed_witness :
    (V2.routePOST [euRegion, usRegion] false (some 0) 444 "ord_4"
        "paycol_1" ⟨[], [], [], []⟩ sampleBody).1
      = .created "ord_4" (displayIdOf sampleBody.merchant_order_id 444)
          sampleBody.email sampleBody.currency_code.toLower "pending"
          sampleBody.total ∧
    (V2.routePOST [euRegion, usRegion] false (some 0) 444 "ord_4"
        "paycol_1" ⟨[], [], [], []⟩ sampleBody).1
      = (V2.routePOST [euRegion, usRegion] false none 444 "ord_4"
          "paycol_1" ⟨[], [], [], []⟩ sampleBody).1 ∧
    V1.statusOf (V2.routePOST [euRegion, usRegion] false (some 0) 444
        "ord_4" "paycol_1" ⟨[], [], [], []⟩ sampleBody).1 = 201 ∧
    (∃ o ∈ (V2.routePOST [euRegion, usRegion] false (some 0) 444 "ord_4"
        "paycol_1" ⟨[], [], [], []⟩ sampleBody).2.orders,
      o.id = "ord_4" ∧
      o.meta_merchant_order_id = sampleBody.merchant_order_id ∧
      o.meta_display_id = displayIdOf sampleBody.merchant_order_id 444) :=
  payment_link_failure_swallowed [euRegion, usRegion] (some 0) 444 "ord_4"
    "paycol_1" ⟨[], [], [], []⟩ sampleBody sampleAddr euRegion rfl
    (by decide) resolveRegion_JP

end Medusa
